import Mathlib

/-!
Shallow embedding of the xeopub-admin-workers content pipeline:
the `posts` / `series` / `websites` tables (migrations name them
`episodes` / `series` / `shows`; the api-worker handlers use the
`posts` / `websites` names, which we keep), the SQL triggers of
`0001_initial_schemas.sql`, the what's-next aggregation handler,
the post/series update handlers, and the slug utilities of
`src/api-worker/src/utils/slugify.ts`.

DATETIME columns are modelled as instants (`Nat`); nullable TEXT
columns as `Option String`; SQLite's three-valued `=` against a
string literal is `sqlEqLit` (a NULL never matches).
-/

/-- A row of the `posts` table (migrations: `episodes`).  Columns that no
claim touches (description, markdown_content, media bucket keys, tags,
prompts, …) are omitted; every column read by the handlers under study is
present. -/
structure DbPost where
  id : Nat
  title : String
  slug : String
  status : String
  website_id : Nat
  series_id : Option Nat
  status_on_youtube : Option String
  status_on_x : Option String
  status_on_website : Option String
  freeze_status : Bool
  scheduled_publish_at : Option Nat
  last_status_change_at : Nat
  created_at : Nat
  updated_at : Nat
deriving Repr, DecidableEq

/-- A row of the `series` table.  `website_id` is the owning site
(migrations call the column `show_id`). -/
structure SeriesRow where
  id : Nat
  title : String
  slug : String
  description : Option String
  website_id : Nat
deriving Repr, DecidableEq

/-- A row of the `websites` table (migrations: `shows`). -/
structure WebsiteRow where
  id : Nat
  name : String
  slug : String
deriving Repr, DecidableEq

/-- The relational store: the three tables the content pipeline touches. -/
structure Db where
  websites : List WebsiteRow
  series : List SeriesRow
  posts : List DbPost
deriving Repr, DecidableEq

/-- `SELECT ... FROM websites WHERE id = ?`. -/
def findWebsite (db : Db) (i : Nat) : Option WebsiteRow :=
  db.websites.find? (fun w => w.id == i)

/-- `SELECT ... FROM series WHERE id = ?`. -/
def findSeries (db : Db) (i : Nat) : Option SeriesRow :=
  db.series.find? (fun s => s.id == i)

/-- SQLite `col = 'lit'` on a nullable TEXT column: NULL compares as
unknown, so only a non-NULL equal value matches. -/
def sqlEqLit (v : Option String) (lit : String) : Bool :=
  match v with
  | none => false
  | some s => s == lit

/-- The row set produced by the `INNER JOIN websites s ON e.website_id = s.id
LEFT JOIN series se ON e.series_id = se.id` frame of `POST_COLUMNS`: the
post survives the inner join exactly when its website exists. -/
def joinOk (db : Db) (e : DbPost) : Bool :=
  (findWebsite db e.website_id).isSome

/-- `fetchPostsByStatus` of the what's-next handler:
`WHERE e.status = ?1 <extraWhere> ORDER BY e.updated_at DESC`, over the
joined frame.  `extraWhere` is the extra conjunct of the concrete call
site. -/
def fetchPostsByStatus (db : Db) (status : String) (extraWhere : DbPost → Bool) :
    List DbPost :=
  ((db.posts.filter (fun e => joinOk db e && e.status == status && extraWhere e)).mergeSort
    (fun a b => b.updated_at ≤ a.updated_at))

/-- Section 1 of the report: `fetchPostsByStatus(db, 'researched')`. -/
def toGenerateMaterialQ (db : Db) : List DbPost :=
  fetchPostsByStatus db "researched" (fun _ => true)

/-- Section 3 of the report:
`fetchPostsByStatus(db, 'videoGenerated', "AND e.status_on_youtube = 'none'")`. -/
def toPublishOnYouTubeQ (db : Db) : List DbPost :=
  fetchPostsByStatus db "videoGenerated" (fun e => sqlEqLit e.status_on_youtube "none")

/-- Section 4 of the report: `fetchPostsByStatus(db, 'videoGenerated',
"AND e.status_on_x = 'none' AND e.status_on_youtube = 'public'")`. -/
def toPublishOnXQ (db : Db) : List DbPost :=
  fetchPostsByStatus db "videoGenerated"
    (fun e => sqlEqLit e.status_on_x "none" && sqlEqLit e.status_on_youtube "public")

/-- The three conditional counts of `fetchWaitingAndGenerating`. -/
structure WaitingCounts where
  materialGenerated : Nat
  generatingVideo : Nat
  generatedNotPublished : Nat
deriving Repr, DecidableEq

/-- The `SUM(CASE WHEN ... THEN 1 ELSE 0 END)` predicate of the
`generatedNotPublished` count: fully generated and published nowhere. -/
def generatedNotPublishedPred (e : DbPost) : Bool :=
  e.status == "videoGenerated" && sqlEqLit e.status_on_youtube "none" &&
    sqlEqLit e.status_on_x "none" && sqlEqLit e.status_on_website "none"

/-- `fetchWaitingAndGenerating`: three conditional counts over the whole
`posts` table (no join). -/
def fetchWaitingAndGenerating (db : Db) : WaitingCounts where
  materialGenerated := (db.posts.filter (fun e => e.status == "materialGenerated")).length
  generatingVideo := (db.posts.filter (fun e => e.status == "generatingVideo")).length
  generatedNotPublished := (db.posts.filter generatedNotPublishedPred).length

/-- The `WHERE` frame of the `RankedPosts` CTE of `fetchToResearch`:
`e.status = 'draft' AND e.series_id IS NOT NULL`, over
`INNER JOIN series se ON e.series_id = se.id INNER JOIN websites s ON
e.website_id = s.id` (both joins are inner, so both parents must exist). -/
def toResearchQual (db : Db) (e : DbPost) : Bool :=
  e.status == "draft" &&
    (match e.series_id with
     | none => false
     | some sid => (findSeries db sid).isSome) &&
    (findWebsite db e.website_id).isSome

/-- The qualifying draft rows of one partition (`PARTITION BY e.series_id`),
in the window order `ORDER BY e.created_at DESC`. -/
def partitionRows (db : Db) (sid : Nat) : List DbPost :=
  ((db.posts.filter (fun e => toResearchQual db e && e.series_id == some sid)).mergeSort
    (fun a b => b.created_at ≤ a.created_at))

/-- The distinct partition keys of the CTE, in first-appearance order. -/
def partitionKeys (db : Db) : List Nat :=
  ((db.posts.filter (toResearchQual db)).filterMap (fun e => e.series_id)).dedup

/-- One partition after the outer `WHERE rn <= 3` filter:
`ROW_NUMBER()` is the 1-based position in the window order. -/
def rankedPartition (db : Db) (sid : Nat) : List DbPost :=
  (((partitionRows db sid).enum).filter (fun r => r.1 + 1 ≤ 3)).map Prod.snd

/-- The full row set returned by the ranked-partition query, partition by
partition (inter-partition order is unspecified by SQL; any fixed order is
a faithful model because the handler groups rows by key afterwards). -/
def rankedRows (db : Db) : List DbPost :=
  (partitionKeys db).flatMap (rankedPartition db)

/-- One group of the `toResearch` section, as assembled by the handler's
`seriesMap` (keyed on the raw `row.series_id`). -/
structure ResearchGroup where
  seriesId : Option Nat
  posts : List DbPost
deriving Repr, DecidableEq

/-- One step of the handler's grouping loop: `seriesMap.get(key).posts.push(row)`
after inserting an empty group on first sight of the key.  A JS `Map`
iterates in insertion order, so the map is an append-ordered list. -/
def pushRow (groups : List ResearchGroup) (e : DbPost) : List ResearchGroup :=
  if groups.any (fun g => g.seriesId == e.series_id) then
    groups.map (fun g =>
      if g.seriesId == e.series_id then { g with posts := g.posts ++ [e] } else g)
  else
    groups ++ [{ seriesId := e.series_id, posts := [e] }]

/-- `fetchToResearch`: the ranked-partition query followed by the in-process
grouping loop. -/
def fetchToResearch (db : Db) : List ResearchGroup :=
  (rankedRows db).foldl pushRow []

/-- The successful response body of `listWhatsNextPosts`. -/
structure WhatsNextResponse where
  toGenerateMaterial : List DbPost
  waitingAndGenerating : WaitingCounts
  toPublishOnYouTube : List DbPost
  toPublishOnX : List DbPost
  toResearch : List ResearchGroup
deriving Repr, DecidableEq

/-- The error body built from `GeneralServerErrorSchema` in the handler's
catch block. -/
structure ServerError where
  message : String
deriving Repr, DecidableEq

/-- `listWhatsNextPosts`: the five queries run under `Promise.all` inside one
`try`.  Each argument is the outcome of one underlying query (the store call
may throw, which we model as `Except`); a rejection of any of them rejects
the `Promise.all`, lands in the catch block, and produces the single
500 error body — no partial sections exist. -/
def listWhatsNextPosts
    (q1 : Except String (List DbPost))
    (q2 : Except String WaitingCounts)
    (q3 : Except String (List DbPost))
    (q4 : Except String (List DbPost))
    (q5 : Except String (List ResearchGroup)) :
    Except ServerError WhatsNextResponse :=
  match q1, q2, q3, q4, q5 with
  | .ok a, .ok b, .ok c, .ok d, .ok e =>
      .ok { toGenerateMaterial := a, waitingAndGenerating := b,
            toPublishOnYouTube := c, toPublishOnX := d, toResearch := e }
  | _, _, _, _, _ =>
      .error { message := "Failed to fetch what's next posts" }

/-- WHEN clause of triggers `episode_show_match_series_insert` /
`episode_show_match_series_update`:
`NEW.series_id IS NOT NULL AND NEW.show_id != (SELECT show_id FROM series
WHERE id = NEW.series_id)` under SQL three-valued logic — if the subquery
finds no series the comparison is unknown and the trigger does not fire
(the foreign key rejects that case separately). -/
def seriesMismatchTrig (db : Db) (new : DbPost) : Bool :=
  match new.series_id with
  | none => false
  | some sid =>
    match findSeries db sid with
    | none => false
    | some se => new.website_id != se.website_id

/-- The foreign keys of the `posts` table: the owning website must exist
and, when present, the series must exist. -/
def fkOkPost (db : Db) (new : DbPost) : Bool :=
  (findWebsite db new.website_id).isSome &&
    (match new.series_id with
     | none => true
     | some sid => (findSeries db sid).isSome)

/-- `INSERT INTO posts ...` as executed by `createPostHandler`: the BEFORE
INSERT trigger aborts on a series/website mismatch, then the foreign keys
are enforced; on abort the statement fails and the table is unchanged. -/
def insertPost (db : Db) (new : DbPost) : Except String Db :=
  if seriesMismatchTrig db new then
    .error "episode show_id must match the show_id of the series."
  else if !fkOkPost db new then
    .error "FOREIGN KEY constraint failed"
  else
    .ok { db with posts := db.posts ++ [new] }

/-- `UPDATE posts SET ... WHERE id = NEW.id` at the row level: `new` is the
full post-update row.  The BEFORE UPDATE trigger applies the same
mismatch check to the NEW row. -/
def updatePostRow (db : Db) (new : DbPost) : Except String Db :=
  if seriesMismatchTrig db new then
    .error "episode show_id must match the show_id of the series."
  else if !fkOkPost db new then
    .error "FOREIGN KEY constraint failed"
  else
    .ok { db with posts := db.posts.map (fun p => if p.id == new.id then new else p) }

/-- `UPDATE series SET website_id = ? WHERE id = ?` as guarded by trigger
`prevent_series_show_change_if_has_episodes`:
`WHEN OLD.show_id != NEW.show_id AND EXISTS (SELECT 1 FROM episodes WHERE
series_id = NEW.id)` aborts; otherwise the row is updated (the foreign key
requires the new website to exist).  An id matching no row is a no-op. -/
def updateSeriesWebsite (db : Db) (sid : Nat) (newWebsiteId : Nat) : Except String Db :=
  match findSeries db sid with
  | none => .ok db
  | some old =>
    if old.website_id != newWebsiteId && db.posts.any (fun e => e.series_id == some sid) then
      .error "Cannot change show of a series with episodes. Update or move episodes first."
    else if (findWebsite db newWebsiteId).isNone then
      .error "FOREIGN KEY constraint failed"
    else
      .ok { db with series := db.series.map (fun s =>
              if s.id == sid then { s with website_id := newWebsiteId } else s) }

/-- The update payload accepted by `updatePostHandler` (the claim-relevant
fields; a `none` field was absent from the request body). -/
structure PostUpdate where
  title : Option String := none
  slug : Option String := none
  status : Option String := none
  freezeStatus : Option Bool := none
deriving Repr, DecidableEq

/-- The row produced by the dynamic `UPDATE posts SET ...` statement that
`updatePostHandler` builds: every defined payload field is written,
`updated_at = CURRENT_TIMESTAMP` is always appended, and
`last_status_change_at = CURRENT_TIMESTAMP` is appended exactly when the
payload defines `status` (`updates.status !== undefined`) — the handler
never compares the incoming status with the stored one. -/
def applyPostUpdate (now : Nat) (u : PostUpdate) (p : DbPost) : DbPost :=
  let p1 : DbPost := { p with
    title := u.title.getD p.title
    slug := u.slug.getD p.slug
    status := u.status.getD p.status
    freeze_status := u.freezeStatus.getD p.freeze_status
    updated_at := now }
  if u.status.isSome then { p1 with last_status_change_at := now } else p1

/-- The ECMAScript `\s` character class (whitespace and line terminators),
as used by `.trim()` and the `/\s+/g` replacement of `generateSlug`. -/
def isJsSpace (c : Char) : Bool :=
  c == ' ' || c == '\t' || c == '\n' || c == '\r' ||
    c.val == 0x0B || c.val == 0x0C || c.val == 0xA0 || c.val == 0x1680 ||
    (0x2000 ≤ c.val && c.val ≤ 0x200A) || c.val == 0x2028 || c.val == 0x2029 ||
    c.val == 0x202F || c.val == 0x205F || c.val == 0x3000 || c.val == 0xFEFF

/-- `String.prototype.trim`: strip `\s` characters from both ends. -/
def trimJs (l : List Char) : List Char :=
  ((l.dropWhile isJsSpace).reverse.dropWhile isJsSpace).reverse

/-- `normalize('NFD')`, character by character: code points below `U+0080`
are their own canonical decomposition; the common Latin-1 precomposed
letters decompose into base letter plus combining mark; characters outside
this range are kept as given. -/
def nfdChar (c : Char) : List Char :=
  if c.val < 0x80 then [c]
  else if c = 'à' then ['a', '̀'] else if c = 'á' then ['a', '́']
  else if c = 'â' then ['a', '̂'] else if c = 'ã' then ['a', '̃']
  else if c = 'ä' then ['a', '̈'] else if c = 'å' then ['a', '̊']
  else if c = 'ç' then ['c', '̧'] else if c = 'è' then ['e', '̀']
  else if c = 'é' then ['e', '́'] else if c = 'ê' then ['e', '̂']
  else if c = 'ë' then ['e', '̈'] else if c = 'ì' then ['i', '̀']
  else if c = 'í' then ['i', '́'] else if c = 'î' then ['i', '̂']
  else if c = 'ï' then ['i', '̈'] else if c = 'ñ' then ['n', '̃']
  else if c = 'ò' then ['o', '̀'] else if c = 'ó' then ['o', '́']
  else if c = 'ô' then ['o', '̂'] else if c = 'õ' then ['o', '̃']
  else if c = 'ö' then ['o', '̈'] else if c = 'ù' then ['u', '̀']
  else if c = 'ú' then ['u', '́'] else if c = 'û' then ['u', '̂']
  else if c = 'ü' then ['u', '̈'] else if c = 'ý' then ['y', '́']
  else [c]

/-- The combining diacritical marks range removed by
`.replace(/[̀-ͯ]/g, '')`. -/
def isCombiningMark (c : Char) : Bool :=
  0x300 ≤ c.val && c.val ≤ 0x36F

/-- `.replace(/\s+/g, '-')`: each maximal run of `\s` characters becomes a
single hyphen — a whitespace character followed by more whitespace is
dropped, the last whitespace of each run becomes the hyphen. -/
def collapseWs : List Char → List Char
  | [] => []
  | [c] => if isJsSpace c then ['-'] else [c]
  | c :: d :: cs =>
    if isJsSpace c then
      if isJsSpace d then collapseWs (d :: cs)
      else '-' :: collapseWs (d :: cs)
    else c :: collapseWs (d :: cs)

/-- The character class kept by `.replace(/[^a-z0-9-]/g, '')`. -/
def isSlugChar (c : Char) : Bool :=
  ('a' ≤ c && c ≤ 'z') || ('0' ≤ c && c ≤ '9') || c == '-'

/-- The hyphen-run collapse (the global replacement of one-or-more hyphens
by a single hyphen): each maximal run of hyphens becomes one hyphen. -/
def collapseHyphens : List Char → List Char
  | [] => []
  | [c] => [c]
  | c :: d :: cs =>
    if c == '-' then
      if d == '-' then collapseHyphens (d :: cs)
      else '-' :: collapseHyphens (d :: cs)
    else c :: collapseHyphens (d :: cs)

/-- The `generateSlug` chain on the character list, in source order:
lowercase, trim, NFD, strip combining marks, whitespace runs to hyphens,
strip non-slug characters, collapse hyphen runs, trim hyphens from both
ends. -/
def generateSlugList (l : List Char) : List Char :=
  let l1 := l.map Char.toLower
  let l2 := trimJs l1
  let l3 := l2.flatMap nfdChar
  let l4 := l3.filter (fun c => !isCombiningMark c)
  let l5 := collapseWs l4
  let l6 := l5.filter isSlugChar
  let l7 := collapseHyphens l6
  let l8 := l7.dropWhile (fun c => c == '-')
  (l8.reverse.dropWhile (fun c => c == '-')).reverse

/-- `generateSlug` of `slugify.ts` (a falsy — empty — input returns the
empty string immediately). -/
def generateSlug (text : String) : String :=
  if text == "" then "" else ⟨generateSlugList text.toList⟩

/-- The environment `ensureUniqueSlug` runs against: the store's answer to
one existence probe, the stream of draws of
`Math.floor(Math.random() * 999) + 1` (the k-th draw is `rand k`), and
`Date.now()`. -/
structure SlugEnv where
  taken : String → Bool
  rand : Nat → Nat
  nowMs : Nat

/-- The retry loop of `ensureUniqueSlug`: while `attempt < MAX_ATTEMPTS`
(10), probe `currentSlug`; if free, return it; otherwise append a fresh
random number to the *initial* slug and retry.  After the loop, return
`initialSlug-<Date.now()>`.  The second component records every slug the
loop probed against the store, in order. -/
def ensureUniqueSlugGo (env : SlugEnv) (initialSlug : String) (attempt : Nat)
    (currentSlug : String) : String × List String :=
  if attempt < 10 then
    if env.taken currentSlug then
      let randomNumber := env.rand attempt
      let r := ensureUniqueSlugGo env initialSlug (attempt + 1)
        (initialSlug ++ "-" ++ toString randomNumber)
      (r.1, currentSlug :: r.2)
    else
      (currentSlug, [currentSlug])
  else
    (initialSlug ++ "-" ++ toString env.nowMs, [])
termination_by 10 - attempt

/-- `ensureUniqueSlug` of `slugify.ts`: the returned slug. -/
def ensureUniqueSlug (env : SlugEnv) (initialSlug : String) : String :=
  (ensureUniqueSlugGo env initialSlug 0 initialSlug).1

/-- The slugs `ensureUniqueSlug` probed against the store, in order (one
probe per loop iteration). -/
def ensureUniqueSlugChecks (env : SlugEnv) (initialSlug : String) : List String :=
  (ensureUniqueSlugGo env initialSlug 0 initialSlug).2

/-- The k-th candidate the loop can probe: the initial slug first, then the
initial slug with the (k-1)-th random draw appended. -/
def slugCandidate (env : SlugEnv) (initialSlug : String) : Nat → String
  | 0 => initialSlug
  | k + 1 => initialSlug ++ "-" ++ toString (env.rand k)

/-- A parameter bound into the uniqueness-probe statement
(`params: (string | number | null)[]`; only strings and numbers are ever
pushed). -/
inductive SqlParam where
  | str (s : String)
  | num (n : Nat)
deriving Repr, DecidableEq

/-- `const globallyUniqueSlugTables = ['websites', 'series', 'posts']`. -/
def globallyUniqueSlugTables : List String := ["websites", "series", "posts"]

/-- One fold step over `Object.entries(additionalConditions)`: a NULL value
appends an `IS NULL` clause, any other value appends an equality clause and
binds the value. -/
def addCondStep (acc : String × List SqlParam × Nat) (kv : String × Option String) :
    String × List SqlParam × Nat :=
  match kv.2 with
  | none => (acc.1 ++ " AND " ++ kv.1 ++ " IS NULL", acc.2.1, acc.2.2)
  | some v =>
      (acc.1 ++ " AND " ++ kv.1 ++ " = ?" ++ toString acc.2.2,
       acc.2.1 ++ [SqlParam.str v], acc.2.2 + 1)

/-- The probe statement built inside `ensureUniqueSlug`'s loop body: base
`SELECT <id> FROM <table> WHERE <slugCol> = ?1`, the optional
`AND <idCol> != ?n` exclusion, and then the additional conditions — which
are applied **only** when the table is not in `globallyUniqueSlugTables`;
for tables in that list they are silently ignored. -/
def buildSlugCheckQuery (tableName slugColumn idColumn : String)
    (currentSlug : String) (excludeId : Option Nat)
    (additionalConditions : Option (List (String × Option String))) :
    String × List SqlParam :=
  let query := "SELECT " ++ idColumn ++ " FROM " ++ tableName ++ " WHERE " ++
    slugColumn ++ " = ?1"
  let params : List SqlParam := [SqlParam.str currentSlug]
  let paramIndex := 2
  let acc :=
    match excludeId with
    | some i =>
        (query ++ " AND " ++ idColumn ++ " != ?" ++ toString paramIndex,
         params ++ [SqlParam.num i], paramIndex + 1)
    | none => (query, params, paramIndex)
  match additionalConditions with
  | some conds =>
      if !(globallyUniqueSlugTables.contains tableName) then
        let r := conds.foldl addCondStep acc
        (r.1, r.2.1)
      else
        (acc.1, acc.2.1)
  | none => (acc.1, acc.2.1)

/-- A concrete website row used by concrete evaluations. -/
def egWebsite : WebsiteRow := { id := 1, name := "Site", slug := "site" }

/-- A concrete series row (owned by `egWebsite`) used by concrete
evaluations. -/
def egSeries : SeriesRow :=
  { id := 7, title := "Srs", slug := "srs", description := none, website_id := 1 }

/-- A concrete post row used by concrete evaluations; fields are overridden
per example. -/
def basePost : DbPost :=
  { id := 1, title := "t", slug := "s", status := "draft", website_id := 1,
    series_id := none, status_on_youtube := none, status_on_x := none,
    status_on_website := none, freeze_status := true,
    scheduled_publish_at := none, last_status_change_at := 0,
    created_at := 0, updated_at := 0 }

/-- The qualifying draft rows of one series as an unsorted multiset: the
rows of the `RankedPosts` CTE whose partition key is `sid`, in table
order. -/
def qualDrafts (db : Db) (sid : Nat) : List DbPost :=
  db.posts.filter (fun e => toResearchQual db e && e.series_id == some sid)

/-- A draft post in series 7 created at instant `i`, for concrete
evaluations of the research section. -/
def egDraft (i : Nat) : DbPost :=
  { basePost with id := i, series_id := some 7, created_at := i, updated_at := i }

/-- A store with five drafts of one series created at 1 < 2 < 3 < 4 < 5. -/
def egResearchDb : Db :=
  { websites := [egWebsite]
    series := [egSeries]
    posts := [egDraft 1, egDraft 2, egDraft 3, egDraft 4, egDraft 5] }

theorem sqlEqLit_eq_true {v : Option String} {lit : String} :
    sqlEqLit v lit = true ↔ v = some lit := by
  cases v <;> simp [sqlEqLit]

theorem mem_fetchPostsByStatus {db : Db} {st : String} {ex : DbPost → Bool}
    {p : DbPost} :
    p ∈ fetchPostsByStatus db st ex ↔
      p ∈ db.posts ∧ joinOk db p = true ∧ p.status = st ∧ ex p = true := by
  unfold fetchPostsByStatus
  rw [List.mem_mergeSort, List.mem_filter]
  simp [and_assoc]

/-- C1: an item with `status = videoGenerated`, YouTube status `none` and X
status `none` is listed in the `toPublishOnYouTube` section and not in the
`toPublishOnX` section; it is listed in the `toPublishOnX` section exactly
when its X status is `none` and its YouTube status is `public` (with
`status = videoGenerated`). -/
theorem publish_gating (db : Db) (p : DbPost) (hmem : p ∈ db.posts)
    (hjoin : joinOk db p = true) :
    (p.status = "videoGenerated" → p.status_on_youtube = some "none" →
      p.status_on_x = some "none" →
      p ∈ toPublishOnYouTubeQ db ∧ p ∉ toPublishOnXQ db) ∧
    (p ∈ toPublishOnXQ db ↔
      p.status = "videoGenerated" ∧ p.status_on_x = some "none" ∧
        p.status_on_youtube = some "public") := by
  constructor
  · intro hst hyt hx
    constructor
    · rw [toPublishOnYouTubeQ, mem_fetchPostsByStatus]
      exact ⟨hmem, hjoin, hst, by rw [sqlEqLit_eq_true]; exact hyt⟩
    · rw [toPublishOnXQ, mem_fetchPostsByStatus]
      rintro ⟨-, -, -, hex⟩
      rw [Bool.and_eq_true, sqlEqLit_eq_true, sqlEqLit_eq_true] at hex
      rw [hyt] at hex
      exact absurd hex.2 (by simp)
  · rw [toPublishOnXQ, mem_fetchPostsByStatus]
    constructor
    · rintro ⟨-, -, hst, hex⟩
      rw [Bool.and_eq_true, sqlEqLit_eq_true, sqlEqLit_eq_true] at hex
      exact ⟨hst, hex.1, hex.2⟩
    · rintro ⟨hst, hx, hyt⟩
      exact ⟨hmem, hjoin, hst, by
        rw [Bool.and_eq_true, sqlEqLit_eq_true, sqlEqLit_eq_true]; exact ⟨hx, hyt⟩⟩

theorem publish_gating_witness :
    ({ basePost with
        status := "videoGenerated"
        status_on_youtube := some "none"
        status_on_x := some "none" } : DbPost) ∈
      toPublishOnYouTubeQ
        { websites := [egWebsite]
          series := []
          posts := [{ basePost with
            status := "videoGenerated"
            status_on_youtube := some "none"
            status_on_x := some "none" }] } ∧
    ({ basePost with
        status := "videoGenerated"
        status_on_youtube := some "none"
        status_on_x := some "none" } : DbPost) ∉
      toPublishOnXQ
        { websites := [egWebsite]
          series := []
          posts := [{ basePost with
            status := "videoGenerated"
            status_on_youtube := some "none"
            status_on_x := some "none" }] } :=
  (publish_gating _ _ (by decide) (by decide)).1 rfl rfl rfl

theorem filter_erase_of_neg {α : Type} [DecidableEq α] (p : α → Bool) (a : α)
    (l : List α) (hp : p a = false) : (l.erase a).filter p = l.filter p := by
  induction l with
  | nil => rfl
  | cons b bs ih =>
    by_cases hb : b = a
    · subst hb
      rw [List.erase_cons_head, List.filter_cons_of_neg (by simp [hp])]
    · rw [List.erase_cons_tail (by simp [hb])]
      by_cases hpb : p b = true
      · rw [List.filter_cons_of_pos hpb, List.filter_cons_of_pos hpb, ih]
      · rw [List.filter_cons_of_neg (by simpa using hpb),
          List.filter_cons_of_neg (by simpa using hpb), ih]

/-- C10: a `videoGenerated` item whose three per-channel status columns are
NULL (the insert default when the creator supplies no channel status) is in
neither publish section, and the `generatedNotPublished` count is the same
as the count taken over the table without that row — the `= 'none'` filters
never match a NULL. -/
theorem null_channels_invisible (db : Db) (p : DbPost) (hmem : p ∈ db.posts)
    (hst : p.status = "videoGenerated")
    (hyt : p.status_on_youtube = none) (hx : p.status_on_x = none)
    (hw : p.status_on_website = none) :
    p ∉ toPublishOnYouTubeQ db ∧ p ∉ toPublishOnXQ db ∧
      (fetchWaitingAndGenerating db).generatedNotPublished =
        ((db.posts.erase p).filter generatedNotPublishedPred).length := by
  refine ⟨?_, ?_, ?_⟩
  · rw [toPublishOnYouTubeQ, mem_fetchPostsByStatus]
    rintro ⟨-, -, -, hex⟩
    rw [sqlEqLit_eq_true, hyt] at hex
    cases hex
  · rw [toPublishOnXQ, mem_fetchPostsByStatus]
    rintro ⟨-, -, -, hex⟩
    rw [Bool.and_eq_true, sqlEqLit_eq_true, sqlEqLit_eq_true, hx] at hex
    cases hex.1
  · rw [fetchWaitingAndGenerating,
      filter_erase_of_neg _ _ _ (by simp [generatedNotPublishedPred, hyt, sqlEqLit])]

theorem null_channels_invisible_witness :
    ({ basePost with status := "videoGenerated" } : DbPost) ∉
      toPublishOnYouTubeQ
        { websites := [egWebsite]
          series := []
          posts := [{ basePost with status := "videoGenerated" }] } ∧
    ({ basePost with status := "videoGenerated" } : DbPost) ∉
      toPublishOnXQ
        { websites := [egWebsite]
          series := []
          posts := [{ basePost with status := "videoGenerated" }] } ∧
    (fetchWaitingAndGenerating
        { websites := [egWebsite]
          series := []
          posts := [{ basePost with status := "videoGenerated" }] }).generatedNotPublished =
      ((({ websites := [egWebsite]
           series := []
           posts := [{ basePost with status := "videoGenerated" }] } : Db).posts.erase
            { basePost with status := "videoGenerated" }).filter
          generatedNotPublishedPred).length :=
  null_channels_invisible _ _ (by decide) rfl rfl rfl rfl

/-- C2: inserting or updating a post whose `series_id` points at a series
owned by a different website is aborted by the trigger, and no row is
created or modified (the statement yields no new store state). -/
theorem series_site_mismatch_rejected (db : Db) (new : DbPost) (sid : Nat)
    (se : SeriesRow) (hsid : new.series_id = some sid)
    (hse : findSeries db sid = some se) (hne : se.website_id ≠ new.website_id) :
    insertPost db new =
      Except.error "episode show_id must match the show_id of the series." ∧
    (∀ db', insertPost db new ≠ Except.ok db') ∧
    updatePostRow db new =
      Except.error "episode show_id must match the show_id of the series." ∧
    (∀ db', updatePostRow db new ≠ Except.ok db') := by
  have htrig : seriesMismatchTrig db new = true := by
    simp only [seriesMismatchTrig, hsid, hse, bne_iff_ne, ne_eq]
    exact fun h => hne h.symm
  refine ⟨?_, ?_, ?_, ?_⟩
  · simp [insertPost, htrig]
  · intro db'
    simp [insertPost, htrig]
  · simp [updatePostRow, htrig]
  · intro db'
    simp [updatePostRow, htrig]

theorem series_site_mismatch_rejected_witness :
    insertPost
        { websites := [egWebsite, { id := 2, name := "Site2", slug := "site2" }]
          series := [egSeries]
          posts := [] }
        { basePost with series_id := some 7, website_id := 2 } =
      Except.error "episode show_id must match the show_id of the series." :=
  (series_site_mismatch_rejected _ _ 7 egSeries rfl (by decide) (by decide)).1

/-- C5: changing the owning website of a series that owns at least one post
is aborted by the trigger; with no owned posts (and an existing target
website) the update succeeds and rewrites the series row. -/
theorem series_reassign_lock (db : Db) (sid newW : Nat) (old : SeriesRow)
    (hold : findSeries db sid = some old) (hch : old.website_id ≠ newW) :
    ((∃ e ∈ db.posts, e.series_id = some sid) →
      updateSeriesWebsite db sid newW =
        Except.error
          "Cannot change show of a series with episodes. Update or move episodes first.") ∧
    ((∀ e ∈ db.posts, e.series_id ≠ some sid) → (findWebsite db newW).isSome →
      updateSeriesWebsite db sid newW =
        Except.ok { db with series := db.series.map (fun s =>
          if s.id == sid then { s with website_id := newW } else s) }) := by
  constructor
  · rintro ⟨e, he, hesid⟩
    have hany : db.posts.any (fun e => e.series_id == some sid) = true :=
      List.any_eq_true.mpr ⟨e, he, by simpa using hesid⟩
    rw [updateSeriesWebsite, hold]
    simp [hany, bne_iff_ne, hch]
  · intro hnone hsomeW
    have hany : db.posts.any (fun e => e.series_id == some sid) = false := by
      rw [List.any_eq_false]
      intro e he
      simpa using hnone e he
    rw [updateSeriesWebsite, hold]
    simp [hany, Option.isNone_iff_eq_none]
    intro hq
    rw [hq] at hsomeW
    cases hsomeW

theorem series_reassign_lock_witness :
    updateSeriesWebsite
        { websites := [egWebsite, { id := 2, name := "Site2", slug := "site2" }]
          series := [egSeries]
          posts := [] } 7 2 =
      Except.ok
        { websites := [egWebsite, { id := 2, name := "Site2", slug := "site2" }]
          series := ([egSeries].map (fun s =>
            if s.id == 7 then { s with website_id := 2 } else s))
          posts := [] } :=
  (series_reassign_lock _ 7 2 egSeries (by decide) (by decide)).2
    (by intro e he; cases he) (by decide)

/-- C3 counterexample: an update whose payload carries `status` equal to the
stored status changes no status value, yet `last_status_change_at` is
stamped — the handler keys the stamp on the presence of the field, not on a
value change. -/
theorem lastStatusChange_stamp_cex :
    (applyPostUpdate 99 { status := some "draft" } basePost).status =
      basePost.status ∧
    (applyPostUpdate 99 { status := some "draft" } basePost).last_status_change_at ≠
      basePost.last_status_change_at := by
  decide

/-- C3 amended: on update, `last_status_change_at` is set to the write time
exactly when the payload contains a `status` field (whatever its value); a
payload without `status` leaves it unchanged. -/
theorem applyPostUpdate_lastStatusChange (now : Nat) (u : PostUpdate) (p : DbPost)
    (hnow : now ≠ p.last_status_change_at) :
    ((applyPostUpdate now u p).last_status_change_at = now ↔ u.status.isSome = true) ∧
    (u.status = none →
      (applyPostUpdate now u p).last_status_change_at = p.last_status_change_at) := by
  cases hs : u.status with
  | none => simp [applyPostUpdate, hs, Ne.symm hnow]
  | some v => simp [applyPostUpdate, hs]

theorem applyPostUpdate_lastStatusChange_witness :
    (99 : Nat) ≠ basePost.last_status_change_at ∧
    ((applyPostUpdate 99 { title := some "T" } basePost).last_status_change_at = 99 ↔
      ({ title := some "T" } : PostUpdate).status.isSome = true) :=
  ⟨by decide,
   (applyPostUpdate_lastStatusChange 99 { title := some "T" } basePost (by decide)).1⟩

/-- C7: the report is all-or-nothing — if every underlying query resolves,
the response carries exactly the five sections; if any of them rejects, the
caller gets the single generic 500 body and no sections. -/
theorem whatsNext_allOrNothing (q1 : Except String (List DbPost))
    (q2 : Except String WaitingCounts) (q3 q4 : Except String (List DbPost))
    (q5 : Except String (List ResearchGroup)) :
    (∀ a b c d e, q1 = Except.ok a → q2 = Except.ok b → q3 = Except.ok c →
      q4 = Except.ok d → q5 = Except.ok e →
      listWhatsNextPosts q1 q2 q3 q4 q5 =
        Except.ok { toGenerateMaterial := a, waitingAndGenerating := b,
                    toPublishOnYouTube := c, toPublishOnX := d, toResearch := e }) ∧
    (¬ (q1.isOk = true ∧ q2.isOk = true ∧ q3.isOk = true ∧ q4.isOk = true ∧
        q5.isOk = true) →
      listWhatsNextPosts q1 q2 q3 q4 q5 =
        Except.error { message := "Failed to fetch what's next posts" }) := by
  constructor
  · rintro a b c d e rfl rfl rfl rfl rfl
    rfl
  · intro h
    cases q1 <;> cases q2 <;> cases q3 <;> cases q4 <;> cases q5 <;>
      simp_all [listWhatsNextPosts, Except.isOk, Except.toBool]

theorem whatsNext_allOrNothing_witness :
    listWhatsNextPosts (Except.ok [])
      (Except.ok
        { materialGenerated := 0
          generatingVideo := 0
          generatedNotPublished := 0 })
      (Except.error "D1_ERROR") (Except.ok []) (Except.ok []) =
      Except.error { message := "Failed to fetch what's next posts" } :=
  (whatsNext_allOrNothing _ _ _ _ _).2 (by simp [Except.isOk, Except.toBool])

theorem addCondStep_foldl_params (conds : List (String × Option String)) :
    ∀ (q : String) (ps : List SqlParam) (i : Nat),
      ((conds.foldl addCondStep (q, ps, i)).2.1) =
        ps ++ conds.filterMap (fun kv => kv.2.map SqlParam.str) := by
  induction conds with
  | nil => intro q ps i; simp
  | cons kv rest ih =>
    intro q ps i
    rcases hkv : kv.2 with - | v
    · rw [List.foldl_cons]
      simp [addCondStep, hkv, ih]
    · rw [List.foldl_cons]
      simp [addCondStep, hkv, ih]

/-- C8 counterexample: for the `posts` table, the probe statement built with
additional scope conditions is byte-for-byte the one built with no
conditions — the resolver decides from the table name and ignores the call
site's scope; for a table outside the hardcoded list the same conditions do
change the statement. -/
theorem slug_scope_inferred_from_table_cex :
    buildSlugCheckQuery "posts" "slug" "id" "hello" none
        (some [("website_id", some "7")]) =
      buildSlugCheckQuery "posts" "slug" "id" "hello" none none ∧
    buildSlugCheckQuery "custom_links" "slug" "id" "hello" none
        (some [("website_id", some "7")]) ≠
      buildSlugCheckQuery "custom_links" "slug" "id" "hello" none none := by
  constructor
  · rfl
  · decide

/-- C8 amended: the resolver applies the caller's additional equality
filters only for tables outside the hardcoded
`globallyUniqueSlugTables = [websites, series, posts]` list; for tables in
that list the filters are silently dropped from the probe statement. -/
theorem buildSlugCheck_scope_policy (t sc ic cs : String) (ex : Option Nat)
    (conds : List (String × Option String)) :
    (t ∈ globallyUniqueSlugTables →
      buildSlugCheckQuery t sc ic cs ex (some conds) =
        buildSlugCheckQuery t sc ic cs ex none) ∧
    (t ∉ globallyUniqueSlugTables →
      (buildSlugCheckQuery t sc ic cs ex (some conds)).2 =
        (buildSlugCheckQuery t sc ic cs ex none).2 ++
          conds.filterMap (fun kv => kv.2.map SqlParam.str)) := by
  constructor
  · intro ht
    fin_cases ht <;> cases ex <;> rfl
  · intro ht
    have hc : globallyUniqueSlugTables.contains t = false := by
      apply Bool.eq_false_iff.mpr
      intro hcontains
      obtain ⟨a, ha, hbeq⟩ := List.contains_iff_exists_mem_beq.mp hcontains
      exact ht ((eq_of_beq hbeq) ▸ ha)
    cases ex <;> simp [buildSlugCheckQuery, hc, addCondStep_foldl_params, ht]

theorem buildSlugCheck_scope_policy_witness :
    ("posts" ∈ globallyUniqueSlugTables ∧
      buildSlugCheckQuery "posts" "slug" "id" "hi" (some 4)
          (some [("series_id", none), ("website_id", some "3")]) =
        buildSlugCheckQuery "posts" "slug" "id" "hi" (some 4) none) ∧
    ("custom_links" ∉ globallyUniqueSlugTables ∧
      (buildSlugCheckQuery "custom_links" "slug" "id" "hi" (some 4)
          (some [("series_id", none), ("website_id", some "3")])).2 =
        (buildSlugCheckQuery "custom_links" "slug" "id" "hi" (some 4) none).2 ++
          ([("series_id", (none : Option String)), ("website_id", some "3")].filterMap
            (fun kv => kv.2.map SqlParam.str))) :=
  ⟨⟨by decide,
    (buildSlugCheck_scope_policy "posts" "slug" "id" "hi" (some 4)
      [("series_id", none), ("website_id", some "3")]).1 (by decide)⟩,
   ⟨by decide,
    (buildSlugCheck_scope_policy "custom_links" "slug" "id" "hi" (some 4)
      [("series_id", none), ("website_id", some "3")]).2 (by decide)⟩⟩

theorem ensureUniqueSlugGo_spec (env : SlugEnv) (init : String) :
    ∀ (fuel attempt : Nat), attempt + fuel = 10 →
      (∃ m, m ≤ fuel ∧
        (ensureUniqueSlugGo env init attempt (slugCandidate env init attempt)).2 =
          (List.range m).map (fun j => slugCandidate env init (attempt + j))) ∧
      ((∀ k, k < 10 → env.taken (slugCandidate env init k) = true) →
        (ensureUniqueSlugGo env init attempt (slugCandidate env init attempt)).1 =
          init ++ "-" ++ toString env.nowMs) := by
  intro fuel
  induction fuel with
  | zero =>
    intro attempt hat
    have h10 : ¬ (attempt < 10) := by omega
    constructor
    · exact ⟨0, Nat.le_refl 0, by rw [ensureUniqueSlugGo, if_neg h10]; rfl⟩
    · intro _
      rw [ensureUniqueSlugGo, if_neg h10]
  | succ f ih =>
    intro attempt hat
    have hlt : attempt < 10 := by omega
    obtain ⟨⟨m, hm, hchecks⟩, hfb⟩ := ih (attempt + 1) (by omega)
    by_cases htk : env.taken (slugCandidate env init attempt) = true
    · have hgo : ensureUniqueSlugGo env init attempt (slugCandidate env init attempt) =
          ((ensureUniqueSlugGo env init (attempt + 1) (slugCandidate env init (attempt + 1))).1,
           slugCandidate env init attempt ::
             (ensureUniqueSlugGo env init (attempt + 1) (slugCandidate env init (attempt + 1))).2) := by
        rw [ensureUniqueSlugGo]
        rw [if_pos hlt, if_pos htk]
        rfl
      constructor
      · refine ⟨m + 1, by omega, ?_⟩
        rw [hgo]
        simp only [hchecks, List.range_succ_eq_map, List.map_cons, List.map_map]
        refine List.cons_eq_cons.mpr ⟨by simp, ?_⟩
        apply List.map_congr_left
        intro j _
        simp only [Function.comp_apply]
        congr 1
        omega
      · intro hall
        rw [hgo]
        exact hfb hall
    · have hgo : ensureUniqueSlugGo env init attempt (slugCandidate env init attempt) =
          (slugCandidate env init attempt, [slugCandidate env init attempt]) := by
        rw [ensureUniqueSlugGo]
        rw [if_pos hlt, if_neg htk]
      clear hchecks hfb
      constructor
      · refine ⟨1, by omega, ?_⟩
        rw [hgo]
        simp [List.range_succ]
      · intro hall
        exact absurd (hall attempt hlt) htk

/-- C6: the probe loop of `ensureUniqueSlug` checks at most 10 candidates,
the first being the initial slug and every later one the *initial* slug
with a fresh random 1..999 suffix (never a suffix stacked on an earlier
try); when every probed candidate collides the function still returns,
yielding the initial slug with the current-time suffix. -/
theorem ensureUniqueSlug_retry_spec (env : SlugEnv) (init : String)
    (hr : ∀ k, 1 ≤ env.rand k ∧ env.rand k ≤ 999) :
    (∃ m, m ≤ 10 ∧ ensureUniqueSlugChecks env init =
      (List.range m).map (slugCandidate env init)) ∧
    (∀ k, ∃ n, 1 ≤ n ∧ n ≤ 999 ∧
      slugCandidate env init (k + 1) = init ++ "-" ++ toString n) ∧
    ((∀ k, k < 10 → env.taken (slugCandidate env init k) = true) →
      ensureUniqueSlug env init = init ++ "-" ++ toString env.nowMs) := by
  obtain ⟨⟨m, hm, hchecks⟩, hfb⟩ := ensureUniqueSlugGo_spec env init 10 0 rfl
  refine ⟨⟨m, hm, ?_⟩, ?_, ?_⟩
  · rw [ensureUniqueSlugChecks]
    rw [show (ensureUniqueSlugGo env init 0 init) =
      (ensureUniqueSlugGo env init 0 (slugCandidate env init 0)) from rfl]
    rw [hchecks]
    apply List.map_congr_left
    intro j _
    rw [Nat.zero_add]
  · intro k
    exact ⟨env.rand k, (hr k).1, (hr k).2, rfl⟩
  · intro hall
    rw [ensureUniqueSlug]
    rw [show (ensureUniqueSlugGo env init 0 init) =
      (ensureUniqueSlugGo env init 0 (slugCandidate env init 0)) from rfl]
    exact hfb hall

theorem ensureUniqueSlug_retry_spec_witness :
    ensureUniqueSlug { taken := fun _ => true, rand := fun _ => 5, nowMs := 1234 }
        "hello-world" =
      "hello-world" ++ "-" ++ toString 1234 :=
  (ensureUniqueSlug_retry_spec
    { taken := fun _ => true, rand := fun _ => 5, nowMs := 1234 } "hello-world"
    (fun _ => ⟨by show (1 : Nat) ≤ 5; omega, by show (5 : Nat) ≤ 999; omega⟩)).2.2
    (fun _ _ => rfl)

theorem partitionRows_eq_mergeSort (db : Db) (sid : Nat) :
    partitionRows db sid =
      (qualDrafts db sid).mergeSort (fun a b => b.created_at ≤ a.created_at) := rfl

theorem partitionRows_perm (db : Db) (sid : Nat) :
    (partitionRows db sid).Perm (qualDrafts db sid) := by
  rw [partitionRows_eq_mergeSort]
  exact List.mergeSort_perm _ _

theorem mem_qualDrafts {db : Db} {sid : Nat} {p : DbPost} :
    p ∈ qualDrafts db sid ↔
      p ∈ db.posts ∧ toResearchQual db p = true ∧ p.series_id = some sid := by
  unfold qualDrafts
  rw [List.mem_filter, Bool.and_eq_true]
  simp [and_assoc]

theorem mem_partitionRows {db : Db} {sid : Nat} {p : DbPost} :
    p ∈ partitionRows db sid ↔
      p ∈ db.posts ∧ toResearchQual db p = true ∧ p.series_id = some sid := by
  rw [(partitionRows_perm db sid).mem_iff, mem_qualDrafts]

theorem partitionRows_sorted (db : Db) (sid : Nat) :
    (partitionRows db sid).Pairwise (fun a b => b.created_at ≤ a.created_at) := by
  rw [partitionRows_eq_mergeSort]
  have h : ((qualDrafts db sid).mergeSort
      (fun a b => decide (b.created_at ≤ a.created_at))).Pairwise
      (fun a b => decide (b.created_at ≤ a.created_at) = true) :=
    List.sorted_mergeSort
      (fun a b c hab hbc => by simp at hab hbc ⊢; omega)
      (fun a b => by simp; omega) (qualDrafts db sid)
  simpa using h

theorem enumFrom_filter_map_take {α : Type} (l : List α) :
    ∀ (k n : Nat), ((List.enumFrom k l).filter (fun r => r.1 + 1 ≤ n)).map Prod.snd =
      if k < n then l.take (n - k) else [] := by
  induction l with
  | nil => intro k n; simp
  | cons a as ih =>
    intro k n
    by_cases hk : k < n
    · rw [List.enumFrom_cons]
      rw [List.filter_cons_of_pos (by simpa using hk)]
      rw [List.map_cons, ih (k + 1) n, if_pos hk]
      by_cases hk1 : k + 1 < n
      · rw [if_pos hk1]
        have h3 : n - k = (n - (k + 1)) + 1 := by omega
        rw [h3, List.take_succ_cons]
      · rw [if_neg hk1]
        have h3 : n - k = 1 := by omega
        rw [h3, List.take_succ_cons, List.take_zero]
    · rw [List.enumFrom_cons]
      rw [List.filter_cons_of_neg (by simp; omega)]
      rw [ih (k + 1) n, if_neg hk, if_neg (by omega)]

theorem rankedPartition_eq_take (db : Db) (sid : Nat) :
    rankedPartition db sid = (partitionRows db sid).take 3 := by
  unfold rankedPartition
  rw [show (partitionRows db sid).enum = List.enumFrom 0 (partitionRows db sid) from rfl]
  rw [enumFrom_filter_map_take]
  simp

theorem mem_partitionKeys {db : Db} {sid : Nat} :
    sid ∈ partitionKeys db ↔
      ∃ e ∈ db.posts, toResearchQual db e = true ∧ e.series_id = some sid := by
  unfold partitionKeys
  rw [List.mem_dedup, List.mem_filterMap]
  constructor
  · rintro ⟨e, he, hs⟩
    rw [List.mem_filter] at he
    exact ⟨e, he.1, he.2, hs⟩
  · rintro ⟨e, he, hq, hs⟩
    exact ⟨e, List.mem_filter.mpr ⟨he, hq⟩, hs⟩

theorem foldl_pushRow_same_key (k : Option Nat) :
    ∀ (rows : List DbPost) (gs : List ResearchGroup) (ps : List DbPost),
      (∀ e ∈ rows, e.series_id = k) →
      (∀ g ∈ gs, g.seriesId ≠ k) →
      (rows.foldl pushRow (gs ++ [{ seriesId := k, posts := ps }])) =
        gs ++ [{ seriesId := k, posts := ps ++ rows }] := by
  intro rows
  induction rows with
  | nil => intro gs ps _ _; simp
  | cons e rest ih =>
    intro gs ps hrows hgs
    rw [List.foldl_cons]
    have hek : e.series_id = k := hrows e (List.mem_cons_self e rest)
    have hpush : pushRow (gs ++ [{ seriesId := k, posts := ps }]) e =
        gs ++ [{ seriesId := k, posts := ps ++ [e] }] := by
      have hany : (gs ++ [({ seriesId := k, posts := ps } : ResearchGroup)]).any
          (fun g => g.seriesId == e.series_id) = true := by
        rw [List.any_eq_true]
        exact ⟨({ seriesId := k, posts := ps } : ResearchGroup), by simp, by simp [hek]⟩
      rw [pushRow, if_pos hany, List.map_append]
      congr 1
      · refine (List.map_congr_left ?_).trans (List.map_id _)
        intro g hg
        rw [if_neg (by simp [hek, hgs g hg])]
        rfl
      · simp [hek]
    rw [hpush]
    rw [ih gs (ps ++ [e]) (fun x hx => hrows x (List.mem_cons_of_mem e hx)) hgs]
    rw [List.append_assoc]
    rfl

theorem foldl_pushRow_new_key (k : Option Nat) (rows : List DbPost)
    (gs : List ResearchGroup) (hrows : ∀ e ∈ rows, e.series_id = k)
    (hgs : ∀ g ∈ gs, g.seriesId ≠ k) (hne : rows ≠ []) :
    rows.foldl pushRow gs = gs ++ [{ seriesId := k, posts := rows }] := by
  cases rows with
  | nil => exact absurd rfl hne
  | cons e rest =>
    rw [List.foldl_cons]
    have hek : e.series_id = k := hrows e (List.mem_cons_self e rest)
    have hpush : pushRow gs e = gs ++ [{ seriesId := k, posts := [e] }] := by
      have hany : gs.any (fun g => g.seriesId == e.series_id) = false := by
        rw [List.any_eq_false]
        intro g hg
        simp [hek, hgs g hg]
      rw [pushRow, if_neg (by simp [hany]), hek]
    rw [hpush]
    rw [foldl_pushRow_same_key k rest gs [e]
      (fun x hx => hrows x (List.mem_cons_of_mem e hx)) hgs]
    rfl

theorem foldl_pushRow_blocks (db : Db) :
    ∀ (keys : List Nat) (gs : List ResearchGroup),
      keys.Nodup →
      (∀ sid ∈ keys, rankedPartition db sid ≠ []) →
      (∀ g ∈ gs, ∀ sid ∈ keys, g.seriesId ≠ some sid) →
      (keys.flatMap (rankedPartition db)).foldl pushRow gs =
        gs ++ keys.map (fun sid =>
          { seriesId := some sid, posts := rankedPartition db sid }) := by
  intro keys
  induction keys with
  | nil => intro gs _ _ _; simp
  | cons sid rest ih =>
    intro gs hnd hne hgs
    rw [List.flatMap_cons, List.foldl_append]
    have hrows : ∀ e ∈ rankedPartition db sid, e.series_id = some sid := by
      intro e he
      rw [rankedPartition_eq_take] at he
      exact (mem_partitionRows.mp ((List.take_sublist _ _).mem he)).2.2
    rw [foldl_pushRow_new_key (some sid) _ gs hrows
      (fun g hg => hgs g hg sid (List.mem_cons_self sid rest))
      (hne sid (List.mem_cons_self sid rest))]
    rw [ih _ (List.nodup_cons.mp hnd).2
      (fun s hs => hne s (List.mem_cons_of_mem sid hs)) ?hgs]
    · rw [List.map_cons, List.append_assoc]
      rfl
    case hgs =>
      intro g hg s hs
      rcases List.mem_append.mp hg with hg1 | hg2
      · exact hgs g hg1 s (List.mem_cons_of_mem sid hs)
      · rw [List.mem_singleton.mp hg2]
        simp only [ne_eq, Option.some_inj]
        intro hss
        exact (List.nodup_cons.mp hnd).1 (hss ▸ hs)

theorem fetchToResearch_eq_map (db : Db) :
    fetchToResearch db =
      (partitionKeys db).map (fun sid =>
        { seriesId := some sid, posts := rankedPartition db sid }) := by
  rw [fetchToResearch, rankedRows]
  rw [foldl_pushRow_blocks db (partitionKeys db) [] (List.nodup_dedup _) ?hne
    (by intro g hg; cases hg)]
  · rw [List.nil_append]
  case hne =>
    intro sid hsid
    obtain ⟨e, he, hq, hs⟩ := mem_partitionKeys.mp hsid
    have hmem : e ∈ partitionRows db sid := mem_partitionRows.mpr ⟨he, hq, hs⟩
    rw [rankedPartition_eq_take]
    intro htake
    rcases List.take_eq_nil_iff.mp htake with h3 | hrows
    · cases h3
    · rw [hrows] at hmem
      cases hmem

/-- C4: a series with at least one qualifying draft appears in the
`toResearch` section as exactly one group whose posts are min(3, count)
of its qualifying drafts — the most recently created ones, in strictly
descending creation order, every omitted qualifying draft being older than
every listed one (creation instants assumed distinct, as in the spec's
t1<t2<t3<t4<t5 example); a series with no qualifying draft yields no group
at all. -/
theorem research_capping (db : Db) (sid : Nat)
    (hdist : (qualDrafts db sid).Pairwise (fun a b => a.created_at ≠ b.created_at)) :
    (qualDrafts db sid ≠ [] →
      ∃ g ∈ fetchToResearch db, g.seriesId = some sid ∧
        g.posts.length = min 3 (qualDrafts db sid).length ∧
        (∀ p ∈ g.posts, p ∈ qualDrafts db sid) ∧
        g.posts.Pairwise (fun a b => b.created_at < a.created_at) ∧
        (∀ q ∈ qualDrafts db sid, q ∉ g.posts →
          ∀ p ∈ g.posts, q.created_at < p.created_at) ∧
        (∀ g' ∈ fetchToResearch db, g'.seriesId = some sid → g' = g)) ∧
    (qualDrafts db sid = [] →
      ∀ g ∈ fetchToResearch db, g.seriesId ≠ some sid) := by
  have hperm := partitionRows_perm db sid
  have hndL : (partitionRows db sid).Pairwise (fun a b => a.created_at ≠ b.created_at) :=
    (hperm.pairwise_iff (fun h => Ne.symm h)).mpr hdist
  have hsorted := partitionRows_sorted db sid
  have hcomb := hsorted.and hndL
  constructor
  · intro hne
    obtain ⟨e, he⟩ := List.exists_mem_of_ne_nil _ hne
    have hm := mem_qualDrafts.mp he
    have hkey : sid ∈ partitionKeys db := mem_partitionKeys.mpr ⟨e, hm.1, hm.2.1, hm.2.2⟩
    refine ⟨{ seriesId := some sid, posts := rankedPartition db sid }, ?_, rfl,
      ?_, ?_, ?_, ?_, ?_⟩
    · rw [fetchToResearch_eq_map]
      exact List.mem_map.mpr ⟨sid, hkey, rfl⟩
    · rw [rankedPartition_eq_take, List.length_take, hperm.length_eq]
    · intro p hp
      rw [rankedPartition_eq_take] at hp
      exact hperm.mem_iff.mp ((List.take_sublist _ _).mem hp)
    · rw [rankedPartition_eq_take]
      refine (hcomb.sublist (List.take_sublist _ _)).imp ?_
      rintro a b ⟨hle, hnedup⟩
      exact Nat.lt_of_le_of_ne hle (Ne.symm hnedup)
    · intro q hq hqnot p hp
      rw [rankedPartition_eq_take] at hqnot hp
      have hqmem : q ∈ partitionRows db sid := hperm.mem_iff.mpr hq
      rw [← List.take_append_drop 3 (partitionRows db sid)] at hqmem
      have hqdrop : q ∈ (partitionRows db sid).drop 3 := by
        rcases List.mem_append.mp hqmem with h | h
        · exact absurd h hqnot
        · exact h
      have hsplit := hcomb
      rw [← List.take_append_drop 3 (partitionRows db sid)] at hsplit
      obtain ⟨-, -, hcross⟩ := List.pairwise_append.mp hsplit
      obtain ⟨hle, hnedup⟩ := hcross p hp q hqdrop
      exact Nat.lt_of_le_of_ne hle (Ne.symm hnedup)
    · intro g' hg' hgsid
      rw [fetchToResearch_eq_map] at hg'
      obtain ⟨sid', hsid', rfl⟩ := List.mem_map.mp hg'
      have : sid' = sid := by simpa using hgsid
      rw [this]
  · intro hempty g hg
    rw [fetchToResearch_eq_map] at hg
    obtain ⟨sid', hsid', rfl⟩ := List.mem_map.mp hg
    simp only [ne_eq, Option.some_inj]
    intro h
    obtain ⟨e', he', hq', hs'⟩ := mem_partitionKeys.mp hsid'
    have hin : e' ∈ qualDrafts db sid := mem_qualDrafts.mpr ⟨he', hq', h ▸ hs'⟩
    rw [hempty] at hin
    cases hin

theorem research_capping_witness :
    ∃ g ∈ fetchToResearch egResearchDb, g.seriesId = some 7 ∧
      g.posts.length = min 3 (qualDrafts egResearchDb 7).length ∧
      (∀ p ∈ g.posts, p ∈ qualDrafts egResearchDb 7) ∧
      g.posts.Pairwise (fun a b => b.created_at < a.created_at) ∧
      (∀ q ∈ qualDrafts egResearchDb 7, q ∉ g.posts →
        ∀ p ∈ g.posts, q.created_at < p.created_at) ∧
      (∀ g' ∈ fetchToResearch egResearchDb, g'.seriesId = some 7 → g' = g) :=
  (research_capping egResearchDb 7 (by decide)).1 (by decide)

theorem isSlugChar_val {c : Char} (h : isSlugChar c = true) :
    c.val.toNat = 45 ∨ (48 ≤ c.val.toNat ∧ c.val.toNat ≤ 57) ∨
      (97 ≤ c.val.toNat ∧ c.val.toNat ≤ 122) := by
  simp only [isSlugChar, Bool.or_eq_true, Bool.and_eq_true, decide_eq_true_eq,
    beq_iff_eq] at h
  rcases h with (⟨h1, h2⟩ | ⟨h1, h2⟩) | h3
  · exact Or.inr (Or.inr ⟨h1, h2⟩)
  · exact Or.inr (Or.inl ⟨h1, h2⟩)
  · subst h3
    exact Or.inl rfl

theorem isJsSpace_val {c : Char} (h : isJsSpace c = true) :
    c.val.toNat = 32 ∨ c.val.toNat = 9 ∨ c.val.toNat = 10 ∨ c.val.toNat = 13 ∨
    c.val.toNat = 11 ∨ c.val.toNat = 12 ∨ c.val.toNat = 160 ∨ c.val.toNat = 5760 ∨
    (8192 ≤ c.val.toNat ∧ c.val.toNat ≤ 8202) ∨ c.val.toNat = 8232 ∨
    c.val.toNat = 8233 ∨ c.val.toNat = 8239 ∨ c.val.toNat = 8287 ∨
    c.val.toNat = 12288 ∨ c.val.toNat = 65279 := by
  simp only [isJsSpace, Bool.or_eq_true, Bool.and_eq_true, decide_eq_true_eq,
    beq_iff_eq] at h
  rcases h with (((((((((((((h | h) | h) | h) | h) | h) | h) | h) | ⟨h1, h2⟩) | h) | h) | h) | h) | h) | h
  · subst h; exact Or.inl rfl
  · subst h; decide
  · subst h; decide
  · subst h; decide
  · have h' : c.val.toNat = 11 := by rw [h]; rfl
    omega
  · have h' : c.val.toNat = 12 := by rw [h]; rfl
    omega
  · have h' : c.val.toNat = 160 := by rw [h]; rfl
    omega
  · have h' : c.val.toNat = 5760 := by rw [h]; rfl
    omega
  · have h1' : 8192 ≤ c.val.toNat := h1
    have h2' : c.val.toNat ≤ 8202 := h2
    omega
  · have h' : c.val.toNat = 8232 := by rw [h]; rfl
    omega
  · have h' : c.val.toNat = 8233 := by rw [h]; rfl
    omega
  · have h' : c.val.toNat = 8239 := by rw [h]; rfl
    omega
  · have h' : c.val.toNat = 8287 := by rw [h]; rfl
    omega
  · have h' : c.val.toNat = 12288 := by rw [h]; rfl
    omega
  · have h' : c.val.toNat = 65279 := by rw [h]; rfl
    omega

theorem isJsSpace_of_slug {c : Char} (h : isSlugChar c = true) :
    isJsSpace c = false := by
  rcases hsp : isJsSpace c with - | -
  · rfl
  · have hv := isSlugChar_val h
    have hs := isJsSpace_val hsp
    omega

theorem isCombiningMark_of_slug {c : Char} (h : isSlugChar c = true) :
    isCombiningMark c = false := by
  rcases hcm : isCombiningMark c with - | -
  · rfl
  · have hv := isSlugChar_val h
    simp [isCombiningMark] at hcm
    have h1 : 768 ≤ c.val.toNat := hcm.1
    have h2 : c.val.toNat ≤ 879 := hcm.2
    omega

theorem toLower_of_slug {c : Char} (h : isSlugChar c = true) :
    c.toLower = c := by
  have hv := isSlugChar_val h
  unfold Char.toLower
  rw [if_neg]
  have : Char.toNat c = c.val.toNat := rfl
  omega

theorem nfdChar_of_slug {c : Char} (h : isSlugChar c = true) :
    nfdChar c = [c] := by
  have hv := isSlugChar_val h
  have hlt : c.val < (0x80 : UInt32) := by
    have : c.val.toNat < 128 := by omega
    exact this
  rw [nfdChar, if_pos hlt]

theorem dropWhile_eq_self_of_false {p : Char → Bool} {l : List Char}
    (h : ∀ c, l.head? = some c → p c = false) : l.dropWhile p = l := by
  cases l with
  | nil => rfl
  | cons a as =>
    rw [List.dropWhile_cons_of_neg]
    simp [h a rfl]

theorem head?_dropWhile_false {p : Char → Bool} {l : List Char} {c : Char}
    (h : (l.dropWhile p).head? = some c) : p c = false := by
  induction l with
  | nil => cases h
  | cons a as ih =>
    by_cases hp : p a = true
    · rw [List.dropWhile_cons_of_pos hp] at h
      exact ih h
    · rw [List.dropWhile_cons_of_neg hp] at h
      rw [List.head?_cons, Option.some_inj] at h
      cases h
      exact Bool.eq_false_iff.mpr hp

theorem map_toLower_of_slug {l : List Char} (h : ∀ c ∈ l, isSlugChar c = true) :
    l.map Char.toLower = l :=
  (List.map_congr_left (fun c hc => toLower_of_slug (h c hc))).trans (List.map_id _)

theorem trimJs_of_noSpace {l : List Char} (h : ∀ c ∈ l, isJsSpace c = false) :
    trimJs l = l := by
  unfold trimJs
  rw [dropWhile_eq_self_of_false (fun c hc => h c (List.mem_of_mem_head? hc))]
  rw [dropWhile_eq_self_of_false (fun c hc =>
    h c (List.mem_reverse.mp (List.mem_of_mem_head? hc)))]
  exact List.reverse_reverse l

theorem flatMap_nfd_of_slug {l : List Char} (h : ∀ c ∈ l, isSlugChar c = true) :
    l.flatMap nfdChar = l := by
  induction l with
  | nil => rfl
  | cons a as ih =>
    rw [List.flatMap_cons, nfdChar_of_slug (h a (List.mem_cons_self a as)),
      ih (fun c hc => h c (List.mem_cons_of_mem a hc))]
    rfl

theorem filter_not_combining_of_slug {l : List Char}
    (h : ∀ c ∈ l, isSlugChar c = true) :
    l.filter (fun c => !isCombiningMark c) = l := by
  rw [List.filter_eq_self]
  intro c hc
  simp [isCombiningMark_of_slug (h c hc)]

theorem collapseWs_of_noSpace {l : List Char} (h : ∀ c ∈ l, isJsSpace c = false) :
    collapseWs l = l := by
  induction l with
  | nil => rfl
  | cons c cs ih =>
    cases cs with
    | nil => simp [collapseWs, h c (List.mem_cons_self c [])]
    | cons d ds =>
      have hc := h c (List.mem_cons_self c (d :: ds))
      rw [collapseWs, if_neg (by simp [hc])]
      rw [ih (fun x hx => h x (List.mem_cons_of_mem c hx))]

theorem filter_slug_of_slug {l : List Char} (h : ∀ c ∈ l, isSlugChar c = true) :
    l.filter isSlugChar = l := List.filter_eq_self.mpr h

theorem collapseHyphens_of_chain {l : List Char}
    (h : l.Chain' (fun a b => ¬(a = '-' ∧ b = '-'))) : collapseHyphens l = l := by
  induction l with
  | nil => rfl
  | cons a rest ih =>
    cases rest with
    | nil => rfl
    | cons d cs =>
      have hR := (List.chain'_cons.mp h).1
      have htail := (List.chain'_cons.mp h).2
      by_cases ha : (a == '-') = true
      · have haeq : a = '-' := eq_of_beq ha
        have hd : ¬ (d == '-') = true := by
          intro hdt
          exact hR ⟨haeq, eq_of_beq hdt⟩
        rw [collapseHyphens, if_pos ha, if_neg hd, ih htail, haeq]
      · rw [collapseHyphens, if_neg ha, ih htail]

theorem collapseHyphens_head? (l : List Char) :
    (collapseHyphens l).head? = l.head? := by
  induction l with
  | nil => rfl
  | cons a rest ih =>
    cases rest with
    | nil => rfl
    | cons d cs =>
      by_cases ha : (a == '-') = true
      · by_cases hd : (d == '-') = true
        · rw [collapseHyphens, if_pos ha, if_pos hd, ih]
          rw [List.head?_cons, List.head?_cons, eq_of_beq ha, eq_of_beq hd]
        · rw [collapseHyphens, if_pos ha, if_neg hd]
          rw [List.head?_cons, List.head?_cons, eq_of_beq ha]
      · rw [collapseHyphens, if_neg ha]
        rfl

theorem mem_collapseHyphens (l : List Char) :
    ∀ c ∈ collapseHyphens l, c = '-' ∨ c ∈ l := by
  induction l with
  | nil => intro c h; cases h
  | cons a rest ih =>
    cases rest with
    | nil => intro c h; right; exact h
    | cons d cs =>
      intro c h
      by_cases ha : (a == '-') = true
      · by_cases hd : (d == '-') = true
        · rw [collapseHyphens, if_pos ha, if_pos hd] at h
          rcases ih c h with h' | h'
          · left; exact h'
          · right; exact List.mem_cons_of_mem a h'
        · rw [collapseHyphens, if_pos ha, if_neg hd, List.mem_cons] at h
          rcases h with h' | h'
          · left; exact h'
          · rcases ih c h' with h'' | h''
            · left; exact h''
            · right; exact List.mem_cons_of_mem a h''
      · rw [collapseHyphens, if_neg ha, List.mem_cons] at h
        rcases h with h' | h'
        · right; exact h' ▸ List.mem_cons_self a (d :: cs)
        · rcases ih c h' with h'' | h''
          · left; exact h''
          · right; exact List.mem_cons_of_mem a h''

theorem chain'_collapseHyphens (l : List Char) :
    (collapseHyphens l).Chain' (fun a b => ¬(a = '-' ∧ b = '-')) := by
  induction l with
  | nil => simp [collapseHyphens]
  | cons a rest ih =>
    cases rest with
    | nil => simp [collapseHyphens]
    | cons d cs =>
      by_cases ha : (a == '-') = true
      · by_cases hd : (d == '-') = true
        · rw [collapseHyphens, if_pos ha, if_pos hd]
          exact ih
        · rw [collapseHyphens, if_pos ha, if_neg hd, List.chain'_cons']
          refine ⟨?_, ih⟩
          intro b hb
          rw [collapseHyphens_head?] at hb
          have hbd : b = d := by exact (by simpa using hb : d = b).symm
          rintro ⟨-, hb'⟩
          rw [hbd] at hb'
          exact (by simpa using hd : d ≠ '-') hb'
      · rw [collapseHyphens, if_neg ha, List.chain'_cons']
        refine ⟨?_, ih⟩
        intro b hb
        rintro ⟨ha', -⟩
        exact (by simpa using ha : a ≠ '-') ha'

theorem mem_generateSlugList {l : List Char} {c : Char}
    (h : c ∈ generateSlugList l) : isSlugChar c = true := by
  simp only [generateSlugList] at h
  rw [List.mem_reverse] at h
  have h1 := (List.dropWhile_sublist _).mem h
  rw [List.mem_reverse] at h1
  have h2 := (List.dropWhile_sublist _).mem h1
  rcases mem_collapseHyphens _ c h2 with hc | hc
  · rw [hc]; rfl
  · exact List.of_mem_filter hc

theorem chain'_generateSlugList (l : List Char) :
    (generateSlugList l).Chain' (fun a b => ¬(a = '-' ∧ b = '-')) := by
  simp only [generateSlugList]
  rw [List.chain'_reverse]
  refine List.Chain'.suffix ?_ (List.dropWhile_suffix _)
  exact (List.chain'_reverse).mpr
    ((chain'_collapseHyphens _).suffix (List.dropWhile_suffix _))

theorem head?_generateSlugList {l : List Char} {c : Char}
    (h : (generateSlugList l).head? = some c) : c ≠ '-' := by
  simp only [generateSlugList] at h
  rw [List.head?_reverse] at h
  set l7 := collapseHyphens (List.filter isSlugChar (collapseWs
    (List.filter (fun c => !isCombiningMark c)
      ((trimJs (List.map Char.toLower l)).flatMap nfdChar)))) with hl7
  set v := List.reverse (List.dropWhile (fun c => c == '-') l7) with hv
  have hne : v.dropWhile (fun c => c == '-') ≠ [] := by
    intro hnil
    rw [hnil] at h
    cases h
  obtain ⟨w, hw⟩ :=
    (List.dropWhile_suffix (fun c => c == '-') :
      v.dropWhile (fun c => c == '-') <:+ v)
  have hlast : v.getLast? = some c := by
    rw [← hw, List.getLast?_append_of_ne_nil _ hne]
    exact h
  rw [hv, List.getLast?_reverse] at hlast
  have hfalse := head?_dropWhile_false hlast
  simpa using hfalse

theorem getLast?_generateSlugList {l : List Char} {c : Char}
    (h : (generateSlugList l).getLast? = some c) : c ≠ '-' := by
  simp only [generateSlugList] at h
  rw [List.getLast?_reverse] at h
  have hfalse := head?_dropWhile_false h
  simpa using hfalse

theorem generateSlugList_idem (l : List Char) :
    generateSlugList (generateSlugList l) = generateSlugList l := by
  set t := generateSlugList l with ht
  have hslug : ∀ c ∈ t, isSlugChar c = true := by
    intro c hc
    rw [ht] at hc
    exact mem_generateSlugList hc
  have hchain : t.Chain' (fun a b => ¬(a = '-' ∧ b = '-')) := by
    rw [ht]
    exact chain'_generateSlugList l
  have hhead : ∀ c, t.head? = some c → (c == '-') = false := by
    intro c hc
    rw [ht] at hc
    simpa using head?_generateSlugList hc
  have hlast : ∀ c, t.reverse.head? = some c → (c == '-') = false := by
    intro c hc
    rw [List.head?_reverse, ht] at hc
    simpa using getLast?_generateSlugList hc
  show generateSlugList t = t
  simp only [generateSlugList]
  rw [map_toLower_of_slug hslug]
  rw [trimJs_of_noSpace (fun c hc => isJsSpace_of_slug (hslug c hc))]
  rw [flatMap_nfd_of_slug hslug]
  rw [filter_not_combining_of_slug hslug]
  rw [collapseWs_of_noSpace (fun c hc => isJsSpace_of_slug (hslug c hc))]
  rw [filter_slug_of_slug hslug]
  rw [collapseHyphens_of_chain hchain]
  rw [dropWhile_eq_self_of_false hhead]
  rw [dropWhile_eq_self_of_false hlast]
  exact List.reverse_reverse t

/-- C9: slug normalization is idempotent — applying `generateSlug` to its
own output returns the output unchanged, for every input string. -/
theorem generateSlug_idempotent (s : String) :
    generateSlug (generateSlug s) = generateSlug s := by
  by_cases hs : s = ""
  · subst hs
    rfl
  · have hinner : generateSlug s = ⟨generateSlugList s.toList⟩ := by
      rw [generateSlug, if_neg (by simp [hs])]
    rw [hinner]
    by_cases ht : generateSlugList s.toList = []
    · rw [ht]
      rfl
    · have hcond : ¬ (((⟨generateSlugList s.toList⟩ : String) == "") = true) := by
        simp only [beq_iff_eq]
        intro heq
        exact ht (congrArg String.data heq)
      rw [generateSlug, if_neg hcond]
      have htl : (⟨generateSlugList s.toList⟩ : String).toList = generateSlugList s.toList := rfl
      rw [htl, generateSlugList_idem]
